import Mathlib

/-
Verification of the Trading_Bot backtest core (src/backtest/simulator.py and
src/backtest/metrics.py) against its natural-language specification.

Modelling conventions:
- Python floats are modelled as rationals (ℚ).  A float field that may be
  non-finite (NaN produced by `np.nan` / guarded by `np.isfinite`) is
  modelled as `Option ℚ`, with `none` standing for a non-finite value.
- The pandas DataFrame consumed by `run_simulation` is modelled as a list of
  (timestamp, Bar) pairs, already in index order (the caller sorts by index;
  the spec requires chronologically ordered input, under which the sort is
  the identity).
- The mutable module-level position variables of the Python loop are packed
  into a `Position` record; `in_position = False` is `pos = none`.
-/

namespace TradingBot

/-- One input bar of the signal-annotated execution frame.  Fields mirror the
required columns of `run_simulation`; possibly non-finite floats are
`Option ℚ`. -/
structure Bar where
  high : Option ℚ
  low : Option ℚ
  close : Option ℚ
  entry_long : Bool
  entry_price : Option ℚ
  stop_price : Option ℚ
  risk_per_unit : Option ℚ
  can_trade : Bool
  risk_multiplier : Option ℚ
  ema_fast_4h : Option ℚ
  vol_regime : String
deriving Repr, DecidableEq

/-- Configuration parameters of `run_simulation`. -/
structure Config where
  initial_cash : ℚ
  risk_pct : ℚ
  cost_rate : ℚ
  max_hold_bars : ℤ
deriving Repr, DecidableEq

/-- Buying incurs a proportional cost (simulator.py line 6). -/
def apply_buy_cost (price cost_rate : ℚ) : ℚ := price * (1 + cost_rate)

/-- Selling incurs the inverse proportional cost (simulator.py line 11). -/
def apply_sell_cost (price cost_rate : ℚ) : ℚ := price * (1 - cost_rate)

/-- Entry fill price (simulator.py line 16). -/
def fill_entry_price (raw_entry_price cost_rate : ℚ) : ℚ :=
  apply_buy_cost raw_entry_price cost_rate

/-- Exit fill price (simulator.py line 20). -/
def fill_exit_price (raw_exit_price cost_rate : ℚ) : ℚ :=
  apply_sell_cost raw_exit_price cost_rate

/-- Stop trigger: both low and stop finite and low ≤ stop
(simulator.py line 24). -/
def should_stop_out (low_price stop_price : Option ℚ) : Bool :=
  match low_price, stop_price with
  | some l, some sp => decide (l ≤ sp)
  | _, _ => false

/-- Stop exit fill (simulator.py line 31). -/
def get_stop_exit_price (stop_price cost_rate : ℚ) : ℚ :=
  fill_exit_price stop_price cost_rate

/-- Close exit fill (simulator.py line 35). -/
def get_close_exit_price (close_price cost_rate : ℚ) : ℚ :=
  fill_exit_price close_price cost_rate

/-- Fraction of remaining units sold at the first take-profit
(simulator.py line 139). -/
def tp1_fraction : ℚ := 1 / 2

/-- Open-position state: the module-level position variables of the Python
loop while `in_position` is true.  `entry_price_filled` and
`risk_per_unit_state` are plain ℚ because the entry path only assigns them
after finiteness checks. -/
structure Position where
  units : ℚ
  remaining_units : ℚ
  entry_time : ℤ
  entry_price_filled : ℚ
  stop_price_state : Option ℚ
  risk_per_unit_state : ℚ
  tp1_price : Option ℚ
  bars_held : ℕ
  partial_taken : Bool
  realized_pnl_usd : ℚ
  regime : String
deriving Repr, DecidableEq

/-- One row of the returned trades DataFrame (simulator.py lines 313-329). -/
structure TradeRecord where
  entry_time : ℤ
  exit_time : ℤ
  entry_price : ℚ
  exit_price : ℚ
  units : ℚ
  remaining_units : ℚ
  reason : String
  pnl_usd : ℚ
  partial_taken : Bool
  r_multiple : Option ℚ
  cash_after : ℚ
deriving Repr, DecidableEq

/-- One row of the returned equity DataFrame (simulator.py line 351). -/
structure EquityPoint where
  timestamp : ℤ
  equity : ℚ
deriving Repr, DecidableEq

/-- The cash / equity / position / ledger state threaded through the bar
loop. -/
structure SimCore where
  cash : ℚ
  equity : ℚ
  pos : Option Position
  trades : List TradeRecord
deriving Repr, DecidableEq

/-- The `max(stop, ema)` stop ratchet used both before the exit checks and
inside the take-profit branch (simulator.py lines 240-245 and 274-279): when
the fast EMA is finite, the stop becomes the EMA if the stop was non-finite,
else the max of the two; when the EMA is non-finite the stop is unchanged. -/
def ratchet_stop (stop ema : Option ℚ) : Option ℚ :=
  match ema with
  | none => stop
  | some e =>
    match stop with
    | none => some e
    | some sp => some (max sp e)

/-- The stop price in force when the exit checks run: the per-bar ratchet at
simulator.py lines 240-245 applies only once the partial has been taken. -/
def pre_exit_stop (p : Position) (ema : Option ℚ) : Option ℚ :=
  if p.partial_taken then ratchet_stop p.stop_price_state ema
  else p.stop_price_state

/-- Take-profit trigger: high and trigger finite, high ≥ trigger, and the
partial not yet taken (simulator.py lines 263-268). -/
def tp_hit (high tp1 : Option ℚ) (partial_taken : Bool) : Bool :=
  match high, tp1 with
  | some h, some tp => decide (tp ≤ h) && !partial_taken
  | _, _ => false

/-- Active time-exit threshold: configured `max_hold_bars` only for the
HIGH_VOL regime captured at entry, the fixed value 10 otherwise
(simulator.py line 294). -/
def hold_limit (cfg : Config) (regime : String) : ℤ :=
  if regime = "HIGH_VOL" then cfg.max_hold_bars else 10

/-- Full exit bookkeeping (simulator.py lines 300-345): fill the exit through
the sell-side cost model, credit cash, append a trade record, reset the
position, and set equity to cash. -/
def full_exit (cfg : Config) (c : SimCore) (p : Position) (ts : ℤ)
    (raw_exit : ℚ) (reason : String) : SimCore :=
  let filled_exit := apply_sell_cost raw_exit cfg.cost_rate
  let final_pnl_usd := p.remaining_units * (filled_exit - p.entry_price_filled)
  let total_pnl := p.realized_pnl_usd + final_pnl_usd
  let cash1 := c.cash + p.remaining_units * filled_exit
  let denom := p.units * p.risk_per_unit_state
  let r_multiple : Option ℚ :=
    if 0 < denom then some (total_pnl / denom) else none
  let tr : TradeRecord :=
    { entry_time := p.entry_time
      exit_time := ts
      entry_price := p.entry_price_filled
      exit_price := filled_exit
      units := p.units
      remaining_units := p.remaining_units
      reason := reason
      pnl_usd := total_pnl
      partial_taken := p.partial_taken
      r_multiple := r_multiple
      cash_after := cash1 }
  { cash := cash1, equity := cash1, pos := none, trades := c.trades ++ [tr] }

/-- The in-position branch of the bar loop (simulator.py lines 227-349):
mark-to-market, the post-partial stop ratchet, then the exit checks in
strict priority order (stop, take-profit, permission, time), else hold. -/
def position_step (cfg : Config) (c : SimCore) (p : Position) (ts : ℤ)
    (bar : Bar) : SimCore :=
  let equity0 :=
    match bar.close with
    | some cl => c.cash + p.remaining_units * cl
    | none => c.cash
  let ema_now := bar.ema_fast_4h
  let stop_now := pre_exit_stop p ema_now
  if should_stop_out bar.low stop_now then
    full_exit cfg { c with equity := equity0 } p ts (stop_now.getD 0) "STOP"
  else if tp_hit bar.high p.tp1_price p.partial_taken then
    let raw_tp1_exit := p.tp1_price.getD 0
    let filled_tp1_exit := apply_sell_cost raw_tp1_exit cfg.cost_rate
    let units_sold := p.remaining_units * tp1_fraction
    let remaining1 := p.remaining_units - units_sold
    let cash1 := c.cash + units_sold * filled_tp1_exit
    let stop1 := ratchet_stop stop_now ema_now
    let realized1 :=
      p.realized_pnl_usd + units_sold * (filled_tp1_exit - p.entry_price_filled)
    -- filled_tp1_exit is always finite here, so the guarded equity rewrite of
    -- simulator.py lines 283-284 always applies
    let equity1 := cash1 + remaining1 * filled_tp1_exit
    { cash := cash1
      equity := equity1
      pos := some
        { p with
          remaining_units := remaining1
          stop_price_state := stop1
          realized_pnl_usd := realized1
          partial_taken := true
          bars_held := p.bars_held + 1 }
      trades := c.trades }
  else if bar.can_trade = false ∧ bar.close.isSome then
    full_exit cfg { c with equity := equity0 } p ts (bar.close.getD 0) "PERMISSION"
  else if hold_limit cfg p.regime ≤ (p.bars_held : ℤ) ∧ bar.close.isSome then
    full_exit cfg { c with equity := equity0 } p ts (bar.close.getD 0) "TIME"
  else
    { cash := c.cash
      equity := equity0
      pos := some { p with bars_held := p.bars_held + 1, stop_price_state := stop_now }
      trades := c.trades }

/-- The flat branch of the bar loop (simulator.py lines 150-225): equity is
cash; on an entry signal, validate, size by risk capped by cash, debit cash
and open the position, else record the flat bar and continue. -/
def flat_step (cfg : Config) (c : SimCore) (ts : ℤ) (bar : Bar) : SimCore :=
  let equity0 := c.cash
  let reject : SimCore := { c with equity := equity0 }
  if bar.entry_long then
    match bar.entry_price, bar.risk_per_unit with
    | some raw_entry, some rpu =>
      -- a non-finite risk_multiplier is coerced to 0.0 (simulator.py line 171)
      let rm := bar.risk_multiplier.getD 0
      if rpu ≤ 0 ∨ rm ≤ 0 then reject
      else
        let filled_entry := apply_buy_cost raw_entry cfg.cost_rate
        if filled_entry ≤ 0 then reject
        else
          let risk_budget := equity0 * cfg.risk_pct
          let adj_risk_budget := risk_budget * rm
          let units_by_risk := adj_risk_budget / rpu
          let units_by_cash := c.cash / filled_entry
          let final_units := min units_by_risk units_by_cash
          if final_units ≤ 0 then reject
          else
            { cash := c.cash - final_units * filled_entry
              equity := equity0
              pos := some
                { units := final_units
                  remaining_units := final_units
                  entry_time := ts
                  entry_price_filled := filled_entry
                  stop_price_state := bar.stop_price
                  risk_per_unit_state := rpu
                  tp1_price := some (raw_entry + 1 * rpu)
                  bars_held := 0
                  partial_taken := false
                  realized_pnl_usd := 0
                  regime := bar.vol_regime }
              trades := c.trades }
    | _, _ => reject
  else reject

/-- One bar of the loop body, without the equity-record append. -/
def step_core (cfg : Config) (c : SimCore) (ts : ℤ) (bar : Bar) : SimCore :=
  match c.pos with
  | none => flat_step cfg c ts bar
  | some p => position_step cfg c p ts bar

/-- One full bar of the loop: process the bar, then append exactly one equity
point carrying the bar's timestamp and the equity at end of processing
(simulator.py line 351). -/
def step_bar (cfg : Config) (st : SimCore × List EquityPoint) (tb : ℤ × Bar) :
    SimCore × List EquityPoint :=
  let c1 := step_core cfg st.1 tb.1 tb.2
  (c1, st.2 ++ [{ timestamp := tb.1, equity := c1.equity }])

/-- Initial account state (simulator.py lines 124-144). -/
def init_core (cfg : Config) : SimCore :=
  { cash := cfg.initial_cash, equity := cfg.initial_cash, pos := none, trades := [] }

/-- Fold of the bar loop from an arbitrary state. -/
def run_from (cfg : Config) : SimCore × List EquityPoint → List (ℤ × Bar) →
    SimCore × List EquityPoint
  | st, [] => st
  | st, tb :: rest => run_from cfg (step_bar cfg st tb) rest

/-- The whole simulation over an (index-ordered) bar list: final core state
plus the equity series. -/
def run_simulation (cfg : Config) (bars : List (ℤ × Bar)) :
    SimCore × List EquityPoint :=
  run_from cfg (init_core cfg, []) bars

/-- The required feature columns (simulator.py lines 107-119). -/
def required_columns : List String :=
  ["high", "low", "close", "entry_long", "entry_price", "stop_price",
   "risk_per_unit", "can_trade", "risk_multiplier", "ema_fast_4h", "vol_regime"]

/-- A raw input DataFrame: its column set plus its rows. -/
structure InputFrame where
  columns : List String
  bars : List (ℤ × Bar)

/-- `run_simulation` including the schema check that runs before the bar loop
(simulator.py lines 120-122): a missing required column raises, producing no
output at all. -/
def run_simulation_checked (cfg : Config) (f : InputFrame) :
    Except String (SimCore × List EquityPoint) :=
  if required_columns.all (fun col => decide (col ∈ f.columns)) then
    Except.ok (run_simulation cfg f.bars)
  else
    Except.error ("INCORRECT DATAFRAME: missing columns")

/-- True exactly on the error branch of an `Except`. -/
def except_is_error {α : Type} : Except String α → Bool
  | Except.error _ => true
  | Except.ok _ => false

-- Metrics layer (src/backtest/metrics.py).

/-- pandas `dropna` on the equity column: keep the finite values in order. -/
def dropna (l : List (Option ℚ)) : List ℚ := l.filterMap id

/-- Running maximum continuation. -/
def cummax_from (m : ℚ) : List ℚ → List ℚ
  | [] => []
  | x :: xs => max m x :: cummax_from (max m x) xs

/-- pandas `cummax`. -/
def cummax : List ℚ → List ℚ
  | [] => []
  | x :: xs => x :: cummax_from x xs

/-- pandas `pct_change` continuation. -/
def pct_change_from (prev : ℚ) : List ℚ → List (Option ℚ)
  | [] => []
  | x :: xs => some (x / prev - 1) :: pct_change_from x xs

/-- pandas `pct_change`: first element NaN, then x/prev − 1. -/
def pct_change : List ℚ → List (Option ℚ)
  | [] => []
  | x :: xs => none :: pct_change_from x xs

/-- pandas skip-NaN mean: NaN when no finite value is present. -/
def omean (l : List (Option ℚ)) : Option ℚ :=
  let v := dropna l
  if v.length = 0 then none else some (v.sum / v.length)

/-- Minimum of a list, `none` when empty. -/
def list_min : List ℚ → Option ℚ
  | [] => none
  | x :: xs => some (xs.foldl min x)

/-- The underwater-duration scan of metrics.py lines 28-36. -/
def dd_duration_loop (maxd duration : ℕ) : List Bool → ℕ
  | [] => max maxd duration
  | b :: rest =>
    if b then dd_duration_loop maxd (duration + 1) rest
    else dd_duration_loop (max maxd duration) 0 rest

/-- Last element of a nonempty run, with an explicit head. -/
def last_of (x : ℚ) : List ℚ → ℚ
  | [] => x
  | y :: ys => last_of y ys

/-- The equity-metrics dictionary.  `std_bar_return` is omitted: a standard
deviation is a square root and is not rational; it plays no role in the
error path. -/
structure EquityMetrics where
  initial_equity : ℚ
  final_equity : ℚ
  total_return_pct : ℚ
  max_drawdown_pct : Option ℚ
  max_drawdown_duration_bars : ℕ
  mean_bar_return : Option ℚ
  number_of_bars : ℕ
deriving Repr, DecidableEq

/-- `compute_equity_metrics` (metrics.py lines 6-52): drop NaNs, require at
least two points, require positive initial equity, else raise. -/
def compute_equity_metrics (equity : List (Option ℚ)) :
    Except String EquityMetrics :=
  match dropna equity with
  | e0 :: e1 :: rest =>
    if 0 < e0 then
      let eqs := e0 :: e1 :: rest
      let hwm := cummax eqs
      let dd := (eqs.zip hwm).map (fun pr => pr.1 / pr.2 - 1)
      let underwater := (eqs.zip hwm).map (fun pr => decide (pr.1 < pr.2))
      Except.ok
        { initial_equity := e0
          final_equity := last_of e0 (e1 :: rest)
          total_return_pct := last_of e0 (e1 :: rest) / e0 - 1
          max_drawdown_pct := list_min dd
          max_drawdown_duration_bars := dd_duration_loop 0 0 underwater
          mean_bar_return := omean (pct_change eqs)
          number_of_bars := eqs.length }
    else Except.error ("INITIAL EQUITY SHOULD BE POSITIVE")
  | _ => Except.error ("EQUITY ERROR: need at least 2 non-NaN equity points")

/-- The trade-metrics dictionary.  Dispersion and holding-time statistics
(std, median, timedelta-based bar counts) are omitted: they are either
irrational or depend on the wall-clock index, and play no role in the error
path.  `profit_factor` collapses the float ∞/NaN sentinels of the
zero-losses case into `none`. -/
structure TradeMetrics where
  num_trades : ℕ
  num_wins : ℕ
  num_losses : ℕ
  win_rate : ℚ
  expectancy_r : Option ℚ
  profits : ℚ
  abs_losses : ℚ
  profit_factor : Option ℚ
  avg_win : Option ℚ
  avg_loss : Option ℚ
deriving Repr, DecidableEq

/-- `compute_trade_metrics` (metrics.py lines 55-114): a missing or empty
trade set raises before any statistic is computed. -/
def compute_trade_metrics (trades : Option (List TradeRecord)) :
    Except String TradeMetrics :=
  match trades with
  | none => Except.error ("TRADE METRICS ERROR: no trades to analyze")
  | some [] => Except.error ("TRADE METRICS ERROR: no trades to analyze")
  | some (t :: ts) =>
    let df := t :: ts
    let num_trades := df.length
    let wins := df.filter (fun r => decide (0 < r.pnl_usd))
    let losses := df.filter (fun r => decide (r.pnl_usd < 0))
    let num_wins := wins.length
    let num_losses := losses.length
    let win_rate := (num_wins : ℚ) / (num_trades : ℚ)
    let expectancy_r := omean (df.map (fun r => r.r_multiple))
    let profits := (wins.map (fun r => r.pnl_usd)).sum
    let abs_losses := (losses.map (fun r => -r.pnl_usd)).sum
    let profit_factor : Option ℚ :=
      if abs_losses = 0 then none else some (profits / abs_losses)
    let avg_win : Option ℚ :=
      if num_wins = 0 then none else some (profits / (num_wins : ℚ))
    let avg_loss : Option ℚ :=
      if num_losses = 0 then none else some (-abs_losses / (num_losses : ℚ))
    Except.ok
      { num_trades := num_trades
        num_wins := num_wins
        num_losses := num_losses
        win_rate := win_rate
        expectancy_r := expectancy_r
        profits := profits
        abs_losses := abs_losses
        profit_factor := profit_factor
        avg_win := avg_win
        avg_loss := avg_loss }

/-- A possibly-NaN field holding a finite positive value. -/
def pos_optb (x : Option ℚ) : Bool :=
  match x with
  | none => false
  | some v => decide (0 < v)

/-- Valid bar in the sense of the spec's testable properties: every price and
feature field finite and positive. -/
def valid_bar (b : Bar) : Bool :=
  pos_optb b.high && pos_optb b.low && pos_optb b.close &&
  pos_optb b.entry_price && pos_optb b.stop_price && pos_optb b.risk_per_unit &&
  pos_optb b.risk_multiplier && pos_optb b.ema_fast_4h

/-- Position-level invariant backing the cash bound: nonnegative remaining
units and nonnegative stop and take-profit levels. -/
def PosInv (p : Position) : Prop :=
  0 ≤ p.remaining_units ∧
  (∀ sp, p.stop_price_state = some sp → 0 ≤ sp) ∧
  (∀ tp, p.tp1_price = some tp → 0 ≤ tp)

/-- Loop invariant: nonnegative cash, and `PosInv` whenever a position is
open. -/
def CoreInv (c : SimCore) : Prop :=
  0 ≤ c.cash ∧ ∀ p, c.pos = some p → PosInv p

-- Concrete scenario data used by witnesses and counterexamples.

/-- Scenario configuration: initial_cash 10000, risk_pct 0.01, cost_rate 0,
max_hold_bars 12. -/
def cfgA : Config :=
  { initial_cash := 10000, risk_pct := 1 / 100, cost_rate := 0, max_hold_bars := 12 }

/-- Scenario A entry bar: entry_long with entry_price 100, stop 95,
risk_per_unit 2, risk_multiplier 1. -/
def barEntry : Bar :=
  { high := some 101, low := some 99, close := some 100, entry_long := true,
    entry_price := some 100, stop_price := some 95, risk_per_unit := some 2,
    can_trade := true, risk_multiplier := some 1, ema_fast_4h := some 90,
    vol_regime := "NORMAL_VOL" }

/-- A bar whose high 103 crosses the take-profit trigger 102 while the low 96
stays above the stop 95; close 101. -/
def barTP : Bar :=
  { high := some 103, low := some 96, close := some 101, entry_long := false,
    entry_price := some 100, stop_price := some 95, risk_per_unit := some 2,
    can_trade := true, risk_multiplier := some 1, ema_fast_4h := some 90,
    vol_regime := "NORMAL_VOL" }

/-- A benign holding bar: no stop (low 96 > 95), no take-profit (high 101 <
102), can_trade true, close 101. -/
def barHold : Bar :=
  { high := some 101, low := some 96, close := some 101, entry_long := false,
    entry_price := some 100, stop_price := some 95, risk_per_unit := some 2,
    can_trade := true, risk_multiplier := some 1, ema_fast_4h := some 90,
    vol_regime := "NORMAL_VOL" }

/-- A bar on which the stop, the take-profit trigger and the permission flip
all fire at once: low 94 ≤ stop 95, high 103 ≥ trigger 102, can_trade false. -/
def barStopTP : Bar :=
  { high := some 103, low := some 94, close := some 96, entry_long := false,
    entry_price := some 100, stop_price := some 95, risk_per_unit := some 2,
    can_trade := false, risk_multiplier := some 1, ema_fast_4h := some 90,
    vol_regime := "NORMAL_VOL" }

/-- A holding bar with a non-finite close. -/
def barNoClose : Bar :=
  { high := some 101, low := some 96, close := none, entry_long := false,
    entry_price := some 100, stop_price := some 95, risk_per_unit := some 2,
    can_trade := true, risk_multiplier := some 1, ema_fast_4h := some 90,
    vol_regime := "NORMAL_VOL" }

/-- The open position produced by `barEntry` under `cfgA`: 50 units at fill
100, stop 95, trigger 102. -/
def pOpen : Position :=
  { units := 50, remaining_units := 50, entry_time := 0,
    entry_price_filled := 100, stop_price_state := some 95,
    risk_per_unit_state := 2, tp1_price := some 102, bars_held := 0,
    partial_taken := false, realized_pnl_usd := 0, regime := "NORMAL_VOL" }

/-- The same position after ten held bars. -/
def pHeld : Position := { pOpen with bars_held := 10 }

/-- Account state while `pOpen` is open. -/
def cOpen : SimCore :=
  { cash := 5000, equity := 10000, pos := some pOpen, trades := [] }

/-- Account state while `pHeld` is open. -/
def cHeld : SimCore := { cOpen with pos := some pHeld }

/-- A configuration with non-positive initial cash. -/
def cfgNeg : Config :=
  { initial_cash := -5, risk_pct := 1 / 100, cost_rate := 0, max_hold_bars := 12 }

/-- A bar with no entry signal. -/
def barFlat : Bar :=
  { high := some 101, low := some 99, close := some 100, entry_long := false,
    entry_price := none, stop_price := none, risk_per_unit := none,
    can_trade := true, risk_multiplier := none, ema_fast_4h := some 90,
    vol_regime := "NORMAL_VOL" }

/-- An input frame carrying every required column. -/
def frameAll : InputFrame := { columns := required_columns, bars := [(0, barFlat)] }

/-- An input frame missing most required columns. -/
def frameMissing : InputFrame := { columns := ["high", "low", "close"], bars := [] }

-- Helper lemmas shared by the claim theorems.

lemma step_core_of_flat (cfg : Config) (c : SimCore) (ts : ℤ) (bar : Bar)
    (hpos : c.pos = none) : step_core cfg c ts bar = flat_step cfg c ts bar := by
  unfold step_core
  rw [hpos]

lemma step_core_of_pos (cfg : Config) (c : SimCore) (p : Position) (ts : ℤ)
    (bar : Bar) (hpos : c.pos = some p) :
    step_core cfg c ts bar = position_step cfg c p ts bar := by
  unfold step_core
  rw [hpos]

-- Claim theorems.

/-- Claim C1: while a position is open, a bar whose finite low is ≤ the finite
current stop price closes the position fully with reason STOP, filled at
stop × (1 − cost_rate), crediting cash by remaining_units × fill.  The
statement quantifies over all bars meeting the stop condition — in
particular bars whose high also reaches the take-profit trigger or whose
can_trade is false — so the stop check has strict first priority. -/
theorem stop_exit_has_first_priority
    (cfg : Config) (c : SimCore) (p : Position) (ts : ℤ) (bar : Bar)
    (l sp : ℚ) (hpos : c.pos = some p) (hlow : bar.low = some l)
    (hsp : pre_exit_stop p bar.ema_fast_4h = some sp) (hle : l ≤ sp) :
    (step_core cfg c ts bar).pos = none ∧
    (step_core cfg c ts bar).cash
      = c.cash + p.remaining_units * (sp * (1 - cfg.cost_rate)) ∧
    ∃ tr : TradeRecord,
      (step_core cfg c ts bar).trades = c.trades ++ [tr] ∧
      tr.reason = "STOP" ∧
      tr.exit_price = sp * (1 - cfg.cost_rate) := by
  have hstop : should_stop_out bar.low (some sp) = true := by
    simp [should_stop_out, hlow, hle]
  rw [step_core_of_pos cfg c p ts bar hpos]
  simp only [position_step, hsp, hstop, if_true, Option.getD_some, full_exit,
    apply_sell_cost]
  exact ⟨trivial, trivial, _, rfl, rfl, rfl⟩

/-- Witness for C1: the stop fires on a bar where the high also crosses the
take-profit trigger and can_trade is false. -/
theorem stop_exit_has_first_priority_witness :
    (step_core cfgA cOpen 1 barStopTP).pos = none ∧
    (step_core cfgA cOpen 1 barStopTP).cash
      = cOpen.cash + pOpen.remaining_units * (95 * (1 - cfgA.cost_rate)) ∧
    ∃ tr : TradeRecord,
      (step_core cfgA cOpen 1 barStopTP).trades = cOpen.trades ++ [tr] ∧
      tr.reason = "STOP" ∧
      tr.exit_price = 95 * (1 - cfgA.cost_rate) :=
  stop_exit_has_first_priority cfgA cOpen pOpen 1 barStopTP 94 95 rfl rfl
    (by simp [pre_exit_stop, pOpen, barStopTP]) (by norm_num)

/-- Claim C2: on a flat bar with an entry signal, finite entry price and positive
per-unit risk and risk multiplier, when the sizing result is positive the
opened unit count is min(equity × risk_pct × risk_multiplier ÷ risk_per_unit,
cash ÷ (entry_price × (1 + cost_rate))) — flat equity equals cash — and cash
is debited by exactly units × filled entry price; concretely, Scenario A
sizes 50 units and leaves cash 5000. -/
theorem entry_sizing_risk_capped_by_cash
    (cfg : Config) (c : SimCore) (ts : ℤ) (bar : Bar) (p0 rpu rm : ℚ)
    (hpos : c.pos = none) (hlong : bar.entry_long = true)
    (hep : bar.entry_price = some p0) (hrpu : bar.risk_per_unit = some rpu)
    (hrm : bar.risk_multiplier = some rm)
    (hrpu0 : 0 < rpu) (hrm0 : 0 < rm)
    (hfe : 0 < p0 * (1 + cfg.cost_rate))
    (hu : 0 < min (c.cash * cfg.risk_pct * rm / rpu)
        (c.cash / (p0 * (1 + cfg.cost_rate)))) :
    (∃ q : Position,
      (step_core cfg c ts bar).pos = some q ∧
      q.units = min (c.cash * cfg.risk_pct * rm / rpu)
        (c.cash / (p0 * (1 + cfg.cost_rate))) ∧
      q.remaining_units = q.units ∧
      (step_core cfg c ts bar).cash
        = c.cash - q.units * (p0 * (1 + cfg.cost_rate))) ∧
    (run_simulation cfgA [(0, barEntry)]).1.pos.map Position.units = some 50 ∧
    (run_simulation cfgA [(0, barEntry)]).1.cash = 5000 := by
  refine ⟨?_, ?_, ?_⟩
  · rw [step_core_of_flat cfg c ts bar hpos]
    simp only [flat_step, hlong, hep, hrpu, hrm, Option.getD_some,
      apply_buy_cost, if_true]
    rw [if_neg (by simp [not_or, not_le, hrpu0, hrm0]),
      if_neg (not_le.mpr hfe), if_neg (not_le.mpr hu)]
    exact ⟨_, rfl, rfl, rfl, rfl⟩
  · norm_num [run_simulation, run_from, step_bar, step_core, flat_step,
      init_core, cfgA, barEntry, apply_buy_cost]
  · norm_num [run_simulation, run_from, step_bar, step_core, flat_step,
      init_core, cfgA, barEntry, apply_buy_cost]

/-- Witness for C2: Scenario A instantiated. -/
theorem entry_sizing_risk_capped_by_cash_witness :
    (∃ q : Position,
      (step_core cfgA (init_core cfgA) 0 barEntry).pos = some q ∧
      q.units = min ((init_core cfgA).cash * cfgA.risk_pct * 1 / 2)
        ((init_core cfgA).cash / (100 * (1 + cfgA.cost_rate))) ∧
      q.remaining_units = q.units ∧
      (step_core cfgA (init_core cfgA) 0 barEntry).cash
        = (init_core cfgA).cash - q.units * (100 * (1 + cfgA.cost_rate))) ∧
    (run_simulation cfgA [(0, barEntry)]).1.pos.map Position.units = some 50 ∧
    (run_simulation cfgA [(0, barEntry)]).1.cash = 5000 :=
  entry_sizing_risk_capped_by_cash cfgA (init_core cfgA) 0 barEntry 100 2 1
    rfl rfl rfl rfl rfl (by norm_num) (by norm_num) (by norm_num [cfgA])
    (by norm_num [init_core, cfgA, lt_min_iff])

/-- Claim C3: the take-profit trigger is set at entry to raw entry price + 1 ×
per-unit risk; and on the first in-position bar where the stop does not fire,
the partial is untaken and the finite high reaches the trigger, the step
sells tp1_fraction = 0.5 of the remaining units at trigger × (1 − cost_rate),
credits cash by that fill, accumulates realized PnL, ratchets the stop to
max(stop, EMA) for a finite EMA, marks the partial taken, and leaves the
position open with halved remaining units. -/
theorem tp1_partial_exit_behaviour :
    tp1_fraction = 1 / 2 ∧
    (∀ (cfg : Config) (c : SimCore) (ts : ℤ) (bar : Bar) (p0 rpu rm : ℚ),
      c.pos = none → bar.entry_long = true → bar.entry_price = some p0 →
      bar.risk_per_unit = some rpu → bar.risk_multiplier = some rm →
      0 < rpu → 0 < rm → 0 < p0 * (1 + cfg.cost_rate) →
      0 < min (c.cash * cfg.risk_pct * rm / rpu)
          (c.cash / (p0 * (1 + cfg.cost_rate))) →
      (step_core cfg c ts bar).pos.map Position.tp1_price
        = some (some (p0 + 1 * rpu))) ∧
    (∀ (cfg : Config) (c : SimCore) (p : Position) (ts : ℤ) (bar : Bar)
      (hi e sp0 tp : ℚ),
      c.pos = some p → p.partial_taken = false →
      should_stop_out bar.low (pre_exit_stop p bar.ema_fast_4h) = false →
      bar.high = some hi → p.tp1_price = some tp → tp ≤ hi →
      p.stop_price_state = some sp0 → bar.ema_fast_4h = some e →
      ∃ q : Position,
        (step_core cfg c ts bar).pos = some q ∧
        (step_core cfg c ts bar).cash
          = c.cash + p.remaining_units * tp1_fraction * (tp * (1 - cfg.cost_rate)) ∧
        (step_core cfg c ts bar).trades = c.trades ∧
        q.remaining_units = p.remaining_units - p.remaining_units * tp1_fraction ∧
        q.remaining_units = p.remaining_units / 2 ∧
        q.realized_pnl_usd = p.realized_pnl_usd
          + p.remaining_units * tp1_fraction
            * (tp * (1 - cfg.cost_rate) - p.entry_price_filled) ∧
        q.stop_price_state = some (max sp0 e) ∧
        q.partial_taken = true ∧
        q.bars_held = p.bars_held + 1) := by
  refine ⟨rfl, ?_, ?_⟩
  · intro cfg c ts bar p0 rpu rm hpos hlong hep hrpu hrm hrpu0 hrm0 hfe hu
    rw [step_core_of_flat cfg c ts bar hpos]
    simp only [flat_step, hlong, hep, hrpu, hrm, Option.getD_some,
      apply_buy_cost, if_true]
    rw [if_neg (by simp [not_or, not_le, hrpu0, hrm0]),
      if_neg (not_le.mpr hfe), if_neg (not_le.mpr hu)]
    rfl
  · intro cfg c p ts bar hi e sp0 tp hpos hpartial hnostop hhigh htp1 hge hsp0 hema
    have htp : tp_hit bar.high p.tp1_price p.partial_taken = true := by
      simp [tp_hit, hhigh, htp1, hge, hpartial]
    have hpre : pre_exit_stop p (some e) = some sp0 := by
      simp [pre_exit_stop, hpartial, hsp0]
    rw [hema, hpre] at hnostop
    rw [htp1] at htp
    rw [step_core_of_pos cfg c p ts bar hpos]
    simp only [position_step, hema, hpre, hnostop, htp, Bool.false_eq_true,
      if_false, if_true, htp1, Option.getD_some, apply_sell_cost, ratchet_stop]
    refine ⟨_, rfl, ?_, ?_, ?_, ?_, ?_, ?_, ?_, ?_⟩
    all_goals first
    | trivial
    | rfl
    | (simp only [tp1_fraction]; ring)

/-- Witness for C3: the trigger of Scenario A's entry, and the take-profit
bar of the concrete open position. -/
theorem tp1_partial_exit_behaviour_witness :
    tp1_fraction = 1 / 2 ∧
    (step_core cfgA (init_core cfgA) 0 barEntry).pos.map Position.tp1_price
      = some (some (100 + 1 * 2)) ∧
    ∃ q : Position,
      (step_core cfgA cOpen 1 barTP).pos = some q ∧
      (step_core cfgA cOpen 1 barTP).cash
        = cOpen.cash + pOpen.remaining_units * tp1_fraction
            * (102 * (1 - cfgA.cost_rate)) ∧
      (step_core cfgA cOpen 1 barTP).trades = cOpen.trades ∧
      q.remaining_units = pOpen.remaining_units
        - pOpen.remaining_units * tp1_fraction ∧
      q.remaining_units = pOpen.remaining_units / 2 ∧
      q.realized_pnl_usd = pOpen.realized_pnl_usd
        + pOpen.remaining_units * tp1_fraction
          * (102 * (1 - cfgA.cost_rate) - pOpen.entry_price_filled) ∧
      q.stop_price_state = some (max 95 90) ∧
      q.partial_taken = true ∧
      q.bars_held = pOpen.bars_held + 1 :=
  ⟨tp1_partial_exit_behaviour.1,
    tp1_partial_exit_behaviour.2.1 cfgA (init_core cfgA) 0 barEntry 100 2 1
      rfl rfl rfl rfl rfl (by norm_num) (by norm_num) (by norm_num [cfgA])
      (by norm_num [init_core, cfgA, lt_min_iff]),
    tp1_partial_exit_behaviour.2.2 cfgA cOpen pOpen 1 barTP 103 90 95 102
      rfl rfl (by norm_num [should_stop_out, pre_exit_stop, pOpen, barTP])
      rfl rfl (by norm_num) rfl rfl⟩

/-- Claim C4: on an in-position bar with finite close where neither the stop nor
the take-profit nor the permission exit fires, a full TIME exit at the close
price via the cost model occurs exactly when bars-held has reached the
active hold limit; the active limit is the configured max_hold_bars when the
regime captured at entry is HIGH_VOL and the fixed value 10 otherwise. -/
theorem time_exit_iff_hold_limit_reached
    (cfg : Config) (c : SimCore) (p : Position) (ts : ℤ) (bar : Bar) (cl : ℚ)
    (hpos : c.pos = some p)
    (hnostop : should_stop_out bar.low (pre_exit_stop p bar.ema_fast_4h) = false)
    (hnotp : tp_hit bar.high p.tp1_price p.partial_taken = false)
    (hperm : bar.can_trade = true)
    (hclose : bar.close = some cl) :
    hold_limit cfg p.regime
      = (if p.regime = "HIGH_VOL" then cfg.max_hold_bars else 10) ∧
    ((step_core cfg c ts bar).pos = none ↔
      hold_limit cfg p.regime ≤ (p.bars_held : ℤ)) ∧
    (hold_limit cfg p.regime ≤ (p.bars_held : ℤ) →
      ∃ tr : TradeRecord,
        (step_core cfg c ts bar).trades = c.trades ++ [tr] ∧
        tr.reason = "TIME" ∧
        tr.exit_price = cl * (1 - cfg.cost_rate)) := by
  have hstep : step_core cfg c ts bar =
      if hold_limit cfg p.regime ≤ (p.bars_held : ℤ) then
        full_exit cfg { c with equity := c.cash + p.remaining_units * cl } p ts
          cl "TIME"
      else
        { cash := c.cash
          equity := c.cash + p.remaining_units * cl
          pos := some
            { p with
              bars_held := p.bars_held + 1
              stop_price_state := pre_exit_stop p bar.ema_fast_4h }
          trades := c.trades } := by
    rw [step_core_of_pos cfg c p ts bar hpos]
    simp only [position_step, hnostop, hnotp, hperm, hclose,
      Bool.false_eq_true, Bool.true_eq_false, if_false, false_and,
      Option.isSome_some, Option.getD_some, and_true]
  refine ⟨rfl, ?_, ?_⟩
  · rw [hstep]
    by_cases hlim : hold_limit cfg p.regime ≤ (p.bars_held : ℤ)
    · rw [if_pos hlim]
      exact iff_of_true rfl hlim
    · rw [if_neg hlim]
      exact iff_of_false (by simp) hlim
  · intro hlim
    rw [hstep, if_pos hlim]
    exact ⟨_, rfl, rfl, rfl⟩

/-- Witness for C4: a non-HIGH_VOL position held for 10 bars exits with
reason TIME even though the configured max_hold_bars is 12. -/
theorem time_exit_iff_hold_limit_reached_witness :
    hold_limit cfgA pHeld.regime
      = (if pHeld.regime = "HIGH_VOL" then cfgA.max_hold_bars else 10) ∧
    ((step_core cfgA cHeld 2 barHold).pos = none ↔
      hold_limit cfgA pHeld.regime ≤ (pHeld.bars_held : ℤ)) ∧
    (hold_limit cfgA pHeld.regime ≤ (pHeld.bars_held : ℤ) →
      ∃ tr : TradeRecord,
        (step_core cfgA cHeld 2 barHold).trades = cHeld.trades ++ [tr] ∧
        tr.reason = "TIME" ∧
        tr.exit_price = 101 * (1 - cfgA.cost_rate)) :=
  time_exit_iff_hold_limit_reached cfgA cHeld pHeld 2 barHold 101 rfl
    (by norm_num [should_stop_out, pre_exit_stop, pHeld, pOpen, barHold])
    (by norm_num [tp_hit, pHeld, pOpen, barHold]) rfl rfl

/-- Counterexample for claim C5: in this concrete run the take-profit fires on the
second bar (close 101); the recorded equity point is 10100 = post-sale cash
(7550) + remaining units (25) × take-profit fill (102), whereas
cash + remaining_units × close would be 7550 + 25 × 101 = 10075 — so the
claimed equity formula fails on take-profit bars. -/
theorem tp_bar_equity_uses_fill_not_close :
    (run_simulation cfgA [(0, barEntry), (1, barTP)]).2 =
      [{ timestamp := 0, equity := 10000 }, { timestamp := 1, equity := 10100 }] ∧
    (run_simulation cfgA [(0, barEntry), (1, barTP)]).1.cash = 7550 ∧
    (run_simulation cfgA [(0, barEntry), (1, barTP)]).1.pos.map
      (fun q => q.remaining_units) = some 25 ∧
    barTP.close = some 101 ∧
    (10100 : ℚ) ≠ 7550 + 25 * 101 := by
  refine ⟨?_, ?_, ?_, rfl, by norm_num⟩ <;>
    norm_num [run_simulation, run_from, step_bar, step_core, flat_step,
      position_step, full_exit, should_stop_out, tp_hit, pre_exit_stop,
      ratchet_stop, hold_limit, tp1_fraction, apply_buy_cost, apply_sell_cost,
      init_core, cfgA, barEntry, barTP]

/-- Claim C5 as amended: on an in-position bar where no full exit fires, bars-held
is incremented and the position stays open; the appended equity point is
cash + remaining_units × close for a finite close when the take-profit does
not fire, and cash alone when close is non-finite; on a take-profit bar the
appended equity point is instead post-sale cash + new remaining units × the
take-profit fill price. -/
theorem holding_bar_equity_recording :
    (∀ (cfg : Config) (st : SimCore × List EquityPoint) (p : Position)
        (ts : ℤ) (bar : Bar) (cl : ℚ),
      st.1.pos = some p →
      should_stop_out bar.low (pre_exit_stop p bar.ema_fast_4h) = false →
      tp_hit bar.high p.tp1_price p.partial_taken = false →
      bar.can_trade = true → bar.close = some cl →
      ¬ hold_limit cfg p.regime ≤ (p.bars_held : ℤ) →
      (step_bar cfg st (ts, bar)).2 = st.2 ++
        [{ timestamp := ts, equity := st.1.cash + p.remaining_units * cl }] ∧
      (step_bar cfg st (ts, bar)).1.pos.map Position.bars_held
        = some (p.bars_held + 1)) ∧
    (∀ (cfg : Config) (st : SimCore × List EquityPoint) (p : Position)
        (ts : ℤ) (bar : Bar),
      st.1.pos = some p →
      should_stop_out bar.low (pre_exit_stop p bar.ema_fast_4h) = false →
      tp_hit bar.high p.tp1_price p.partial_taken = false →
      bar.close = none →
      (step_bar cfg st (ts, bar)).2 = st.2 ++
        [{ timestamp := ts, equity := st.1.cash }] ∧
      (step_bar cfg st (ts, bar)).1.pos.map Position.bars_held
        = some (p.bars_held + 1)) ∧
    (∀ (cfg : Config) (st : SimCore × List EquityPoint) (p : Position)
        (ts : ℤ) (bar : Bar) (hi tp : ℚ),
      st.1.pos = some p → p.partial_taken = false →
      should_stop_out bar.low (pre_exit_stop p bar.ema_fast_4h) = false →
      bar.high = some hi → p.tp1_price = some tp → tp ≤ hi →
      (step_bar cfg st (ts, bar)).2 = st.2 ++
        [{ timestamp := ts, equity :=
            st.1.cash + p.remaining_units * tp1_fraction
              * (tp * (1 - cfg.cost_rate))
            + (p.remaining_units - p.remaining_units * tp1_fraction)
              * (tp * (1 - cfg.cost_rate)) }] ∧
      (step_bar cfg st (ts, bar)).1.pos.map Position.bars_held
        = some (p.bars_held + 1)) := by
  refine ⟨?_, ?_, ?_⟩
  · intro cfg st p ts bar cl hpos hnostop hnotp hperm hclose hlim
    constructor <;>
      simp only [step_bar, step_core_of_pos cfg st.1 p ts bar hpos,
        position_step, hnostop, hnotp, hperm, hclose, Bool.false_eq_true,
        Bool.true_eq_false, if_false, false_and, Option.isSome_some, and_true,
        if_neg hlim, Option.map_some, Option.map_some']
  · intro cfg st p ts bar hpos hnostop hnotp hclose
    constructor <;>
      simp only [step_bar, step_core_of_pos cfg st.1 p ts bar hpos,
        position_step, hnostop, hnotp, hclose, Bool.false_eq_true, if_false,
        Option.isSome_none, and_false, Option.map_some, Option.map_some']
  · intro cfg st p ts bar hi tp hpos hpartial hnostop hhigh htp1 hge
    have htp : tp_hit bar.high p.tp1_price p.partial_taken = true := by
      simp [tp_hit, hhigh, htp1, hge, hpartial]
    rw [htp1] at htp
    constructor <;>
      simp only [step_bar, step_core_of_pos cfg st.1 p ts bar hpos,
        position_step, hnostop, htp, htp1, Bool.false_eq_true, if_false,
        if_true, Option.getD_some, apply_sell_cost, Option.map_some,
        Option.map_some']

/-- Witness for the amended C5: a plain holding bar, a holding bar with a
non-finite close, and a take-profit bar. -/
theorem holding_bar_equity_recording_witness :
    ((step_bar cfgA (cOpen, ([] : List EquityPoint)) (1, barHold)).2
      = ([] : List EquityPoint) ++
        [{ timestamp := 1, equity := cOpen.cash + pOpen.remaining_units * 101 }] ∧
    (step_bar cfgA (cOpen, ([] : List EquityPoint)) (1, barHold)).1.pos.map
        Position.bars_held = some (pOpen.bars_held + 1)) ∧
    ((step_bar cfgA (cOpen, ([] : List EquityPoint)) (1, barNoClose)).2
      = ([] : List EquityPoint) ++
        [{ timestamp := 1, equity := cOpen.cash }] ∧
    (step_bar cfgA (cOpen, ([] : List EquityPoint)) (1, barNoClose)).1.pos.map
        Position.bars_held = some (pOpen.bars_held + 1)) ∧
    ((step_bar cfgA (cOpen, ([] : List EquityPoint)) (1, barTP)).2
      = ([] : List EquityPoint) ++
        [{ timestamp := 1, equity :=
            cOpen.cash + pOpen.remaining_units * tp1_fraction
              * (102 * (1 - cfgA.cost_rate))
            + (pOpen.remaining_units - pOpen.remaining_units * tp1_fraction)
              * (102 * (1 - cfgA.cost_rate)) }] ∧
    (step_bar cfgA (cOpen, ([] : List EquityPoint)) (1, barTP)).1.pos.map
        Position.bars_held = some (pOpen.bars_held + 1)) :=
  ⟨holding_bar_equity_recording.1 cfgA (cOpen, []) pOpen 1 barHold 101 rfl
      (by norm_num [should_stop_out, pre_exit_stop, pOpen, barHold])
      (by norm_num [tp_hit, pOpen, barHold]) rfl rfl
      (by decide),
    holding_bar_equity_recording.2.1 cfgA (cOpen, []) pOpen 1 barNoClose rfl
      (by norm_num [should_stop_out, pre_exit_stop, pOpen, barNoClose])
      (by norm_num [tp_hit, pOpen, barNoClose]) rfl,
    holding_bar_equity_recording.2.2 cfgA (cOpen, []) pOpen 1 barTP 103 102 rfl
      rfl (by norm_num [should_stop_out, pre_exit_stop, pOpen, barTP])
      rfl rfl (by norm_num)⟩

lemma pos_optb_pos {x : Option ℚ} (hx : pos_optb x = true) :
    ∀ v, x = some v → 0 < v := by
  intro v hv
  subst hv
  simpa [pos_optb] using hx

lemma pos_optb_exists {x : Option ℚ} (hx : pos_optb x = true) :
    ∃ v, x = some v ∧ 0 < v := by
  cases x with
  | none => simp [pos_optb] at hx
  | some v => exact ⟨v, rfl, by simpa [pos_optb] using hx⟩

lemma ratchet_stop_nonneg {stop ema : Option ℚ}
    (hs : ∀ sp, stop = some sp → 0 ≤ sp) (he : ∀ e, ema = some e → 0 ≤ e) :
    ∀ sp, ratchet_stop stop ema = some sp → 0 ≤ sp := by
  intro sp h
  cases ema with
  | none => exact hs sp h
  | some e =>
    cases stop with
    | none =>
      simp only [ratchet_stop, Option.some.injEq] at h
      exact h ▸ he e rfl
    | some s0 =>
      simp only [ratchet_stop, Option.some.injEq] at h
      exact h ▸ le_trans (hs s0 rfl) (le_max_left s0 e)

lemma pre_exit_stop_nonneg {p : Position} {ema : Option ℚ}
    (hs : ∀ sp, p.stop_price_state = some sp → 0 ≤ sp)
    (he : ∀ e, ema = some e → 0 ≤ e) :
    ∀ sp, pre_exit_stop p ema = some sp → 0 ≤ sp := by
  intro sp h
  cases hpt : p.partial_taken with
  | false =>
    rw [pre_exit_stop, hpt] at h
    exact hs sp (by simpa using h)
  | true =>
    rw [pre_exit_stop, hpt] at h
    exact ratchet_stop_nonneg hs he sp (by simpa using h)

lemma should_stop_out_some {low st : Option ℚ}
    (h : should_stop_out low st = true) : ∃ sp, st = some sp := by
  cases low with
  | none => simp [should_stop_out] at h
  | some l =>
    cases st with
    | none => simp [should_stop_out] at h
    | some sp => exact ⟨sp, rfl⟩

lemma tp_hit_some {high tp1 : Option ℚ} {pt : Bool}
    (h : tp_hit high tp1 pt = true) : ∃ tp, tp1 = some tp := by
  cases high with
  | none => simp [tp_hit] at h
  | some hi =>
    cases tp1 with
    | none => simp [tp_hit] at h
    | some tp => exact ⟨tp, rfl⟩

lemma full_exit_inv (cfg : Config) (c : SimCore) (p : Position) (ts : ℤ)
    (raw_exit : ℚ) (reason : String) (hcost : cfg.cost_rate ≤ 1)
    (hcash : 0 ≤ c.cash) (hrem : 0 ≤ p.remaining_units) (hraw : 0 ≤ raw_exit) :
    CoreInv (full_exit cfg c p ts raw_exit reason) := by
  constructor
  · have hfill : 0 ≤ p.remaining_units * (raw_exit * (1 - cfg.cost_rate)) :=
      mul_nonneg hrem (mul_nonneg hraw (by linarith))
    simp only [full_exit, apply_sell_cost]
    linarith
  · intro q hq
    simp [full_exit] at hq

lemma flat_step_inv (cfg : Config) (c : SimCore) (ts : ℤ) (bar : Bar)
    (hv : valid_bar bar = true) (hcash : 0 ≤ c.cash) (hflat : c.pos = none) :
    CoreInv (flat_step cfg c ts bar) := by
  simp only [valid_bar, Bool.and_eq_true] at hv
  obtain ⟨⟨⟨⟨⟨⟨⟨hhigh, hlow⟩, hclose⟩, hep⟩, hsp⟩, hrpu⟩, hrm⟩, hema⟩ := hv
  have hreject : CoreInv { c with equity := c.cash } := by
    refine ⟨hcash, ?_⟩
    intro q hq
    simp [hflat] at hq
  simp only [flat_step]
  split
  · split
    · rename_i raw_entry rpu hepq hrpuq
      split
      · exact hreject
      · split
        · exact hreject
        · split
          · exact hreject
          · rename_i hrm0 hfe0 hfu0
            have hfe : 0 < apply_buy_cost raw_entry cfg.cost_rate :=
              lt_of_not_le hfe0
            constructor
            · have h3 : min (c.cash * cfg.risk_pct * bar.risk_multiplier.getD 0
                  / rpu) (c.cash / apply_buy_cost raw_entry cfg.cost_rate)
                  * apply_buy_cost raw_entry cfg.cost_rate
                  ≤ (c.cash / apply_buy_cost raw_entry cfg.cost_rate)
                  * apply_buy_cost raw_entry cfg.cost_rate :=
                mul_le_mul_of_nonneg_right (min_le_right _ _) (le_of_lt hfe)
              rw [div_mul_cancel₀ _ (ne_of_gt hfe)] at h3
              simp only
              linarith
            · intro q hq
              simp only [Option.some.injEq] at hq
              subst hq
              have hraw0 : 0 < raw_entry := pos_optb_pos hep raw_entry hepq
              have hrpu0 : 0 < rpu := pos_optb_pos hrpu rpu hrpuq
              refine ⟨le_of_lt (lt_of_not_le hfu0), ?_, ?_⟩
              · intro sp hspq
                exact le_of_lt (pos_optb_pos hsp sp hspq)
              · intro tp htpq
                simp only [Option.some.injEq] at htpq
                subst htpq
                linarith
    · exact hreject
  · exact hreject

lemma position_step_inv (cfg : Config) (c : SimCore) (p : Position) (ts : ℤ)
    (bar : Bar) (hcost : cfg.cost_rate ≤ 1) (hv : valid_bar bar = true)
    (hcash : 0 ≤ c.cash) (hp : PosInv p) :
    CoreInv (position_step cfg c p ts bar) := by
  obtain ⟨hrem, hstopinv, htpinv⟩ := hp
  simp only [valid_bar, Bool.and_eq_true] at hv
  obtain ⟨⟨⟨⟨⟨⟨⟨hhigh, hlow⟩, hclose⟩, hep⟩, hsp⟩, hrpu⟩, hrm⟩, hema⟩ := hv
  have hema0 : ∀ e, bar.ema_fast_4h = some e → 0 ≤ e := fun e he =>
    le_of_lt (pos_optb_pos hema e he)
  have hstopnow : ∀ sp, pre_exit_stop p bar.ema_fast_4h = some sp → 0 ≤ sp :=
    pre_exit_stop_nonneg hstopinv hema0
  obtain ⟨cl, hclq, hcl0⟩ := pos_optb_exists hclose
  simp only [position_step]
  split
  · rename_i hs
    obtain ⟨sp, hspq⟩ := should_stop_out_some hs
    rw [hspq]
    exact full_exit_inv cfg _ p ts ((some sp).getD 0) "STOP" hcost hcash hrem
      (by simpa using hstopnow sp hspq)
  · split
    · rename_i hs htp
      obtain ⟨tp, htpq⟩ := tp_hit_some htp
      rw [htpq]
      have htp0 : 0 ≤ tp := htpinv tp htpq
      have hfrac : (0:ℚ) ≤ tp1_fraction := by norm_num [tp1_fraction]
      have hfill : 0 ≤ tp * (1 - cfg.cost_rate) :=
        mul_nonneg htp0 (by linarith)
      constructor
      · have h3 : 0 ≤ p.remaining_units * tp1_fraction
            * ((some tp).getD 0 * (1 - cfg.cost_rate)) := by
          simpa using mul_nonneg (mul_nonneg hrem hfrac) hfill
        simp only [apply_sell_cost]
        linarith
      · intro q hq
        simp only [Option.some.injEq] at hq
        subst hq
        refine ⟨?_, ?_, ?_⟩
        · simp only [tp1_fraction]
          linarith
        · exact ratchet_stop_nonneg hstopnow hema0
        · simpa [htpq] using htpinv
    · split
      · exact full_exit_inv cfg _ p ts (bar.close.getD 0) "PERMISSION" hcost
          hcash hrem (by simp [hclq]; linarith)
      · split
        · exact full_exit_inv cfg _ p ts (bar.close.getD 0) "TIME" hcost
            hcash hrem (by simp [hclq]; linarith)
        · refine ⟨hcash, ?_⟩
          intro q hq
          simp only [Option.some.injEq] at hq
          subst hq
          exact ⟨hrem, hstopnow, htpinv⟩

lemma step_core_inv (cfg : Config) (c : SimCore) (ts : ℤ) (bar : Bar)
    (hcost : cfg.cost_rate ≤ 1) (hv : valid_bar bar = true)
    (hinv : CoreInv c) : CoreInv (step_core cfg c ts bar) := by
  cases hpos : c.pos with
  | none =>
    rw [step_core_of_flat cfg c ts bar hpos]
    exact flat_step_inv cfg c ts bar hv hinv.1 hpos
  | some p =>
    rw [step_core_of_pos cfg c p ts bar hpos]
    exact position_step_inv cfg c p ts bar hcost hv hinv.1 (hinv.2 p hpos)

lemma run_from_inv (cfg : Config) (hcost : cfg.cost_rate ≤ 1) :
    ∀ (l : List (ℤ × Bar)) (st : SimCore × List EquityPoint),
      (∀ tb ∈ l, valid_bar tb.2 = true) → CoreInv st.1 →
      CoreInv (run_from cfg st l).1
  | [], _, _, hinv => hinv
  | tb :: rest, st, hvl, hinv => by
    rw [run_from]
    exact run_from_inv cfg hcost rest (step_bar cfg st tb)
      (fun b hb => hvl b (List.mem_cons_of_mem _ hb))
      (step_core_inv cfg st.1 tb.1 tb.2 hcost
        (hvl tb (List.mem_cons_self _ _)) hinv)

/-- Claim C6: over any run on bars with finite positive price and feature fields,
under the configured positive initial cash and a cost rate in [0, 1], the
cash balance is never negative at any point: every prefix of the bar list
leaves nonnegative cash. -/
theorem cash_never_negative
    (cfg : Config) (bars pfx rest : List (ℤ × Bar))
    (hsplit : bars = pfx ++ rest)
    (hcash0 : 0 < cfg.initial_cash)
    (hcost0 : 0 ≤ cfg.cost_rate) (hcost1 : cfg.cost_rate ≤ 1)
    (hv : ∀ tb ∈ bars, valid_bar tb.2 = true) :
    0 ≤ (run_simulation cfg pfx).1.cash := by
  have hvp : ∀ tb ∈ pfx, valid_bar tb.2 = true := fun tb htb =>
    hv tb (hsplit ▸ List.mem_append_left rest htb)
  have hinit : CoreInv (init_core cfg, ([] : List EquityPoint)).1 := by
    refine ⟨le_of_lt hcash0, ?_⟩
    intro p hp
    simp [init_core] at hp
  exact (run_from_inv cfg hcost1 pfx (init_core cfg, []) hvp hinit).1

/-- Witness for C6: the entry/take-profit run, checked after its first bar. -/
theorem cash_never_negative_witness :
    0 ≤ (run_simulation cfgA [(0, barEntry)]).1.cash :=
  cash_never_negative cfgA [(0, barEntry), (1, barTP)] [(0, barEntry)]
    [(1, barTP)] rfl (by norm_num [cfgA]) (by norm_num [cfgA])
    (by norm_num [cfgA]) (by decide)

lemma run_from_records_len (cfg : Config) :
    ∀ (l : List (ℤ × Bar)) (st : SimCore × List EquityPoint),
      (run_from cfg st l).2.length = st.2.length + l.length
  | [], _ => rfl
  | tb :: rest, st => by
    rw [run_from, run_from_records_len cfg rest]
    simp [step_bar]
    omega

lemma run_from_records_ts (cfg : Config) :
    ∀ (l : List (ℤ × Bar)) (st : SimCore × List EquityPoint),
      (run_from cfg st l).2.map EquityPoint.timestamp
        = st.2.map EquityPoint.timestamp ++ l.map Prod.fst
  | [], st => by simp [run_from]
  | tb :: rest, st => by
    rw [run_from, run_from_records_ts cfg rest]
    simp [step_bar]

/-- Claim C7: every accepted run appends exactly one equity point per input bar;
the equity series has the same length as the input, and its timestamps equal
the input bar timestamps in the same order. -/
theorem equity_series_one_point_per_bar (cfg : Config) (bars : List (ℤ × Bar)) :
    (run_simulation cfg bars).2.length = bars.length ∧
    (run_simulation cfg bars).2.map EquityPoint.timestamp = bars.map Prod.fst := by
  constructor
  · simpa [run_simulation] using run_from_records_len cfg bars (init_core cfg, [])
  · simpa [run_simulation] using run_from_records_ts cfg bars (init_core cfg, [])

/-- Claim C8 as amended: a missing required feature column makes run_simulation
raise before processing any bar, producing no output at all; a non-positive
configured initial cash, however, is not validated anywhere and the
simulation simply runs with it. -/
theorem missing_column_is_fatal
    (cfg : Config) (f : InputFrame) (col : String)
    (hreq : col ∈ required_columns) (hmiss : col ∉ f.columns) :
    run_simulation_checked cfg f
      = Except.error ("INCORRECT DATAFRAME: missing columns") := by
  have h : ¬ (required_columns.all (fun c0 => decide (c0 ∈ f.columns)) = true) := by
    intro hall
    rw [List.all_eq_true] at hall
    exact hmiss (by simpa using hall col hreq)
  rw [run_simulation_checked, if_neg h]

/-- Witness for the amended C8: a frame carrying only high/low/close is
rejected outright. -/
theorem missing_column_is_fatal_witness :
    run_simulation_checked cfgA frameMissing
      = Except.error ("INCORRECT DATAFRAME: missing columns") :=
  missing_column_is_fatal cfgA frameMissing "entry_long" (by decide) (by decide)

/-- Counterexample for claim C8: with every required column present and the
non-positive initial cash −5, run_simulation raises nothing — the configured
initial cash is never validated, contradicting the claim that a non-positive
initial cash is fatal before simulation starts. -/
theorem nonpositive_initial_cash_not_rejected :
    cfgNeg.initial_cash ≤ 0 ∧
    except_is_error (run_simulation_checked cfgNeg frameAll) = false := by
  constructor
  · norm_num [cfgNeg]
  · rfl

/-- Claim C9: the metrics layer fails explicitly rather than returning defaults:
compute_trade_metrics raises on a missing or empty trade set, and
compute_equity_metrics raises whenever fewer than two non-NaN equity points
remain or the initial non-NaN equity value is non-positive. -/
theorem metrics_fail_explicitly :
    (∀ t : Option (List TradeRecord), t = none ∨ t = some [] →
      except_is_error (compute_trade_metrics t) = true) ∧
    (∀ l : List (Option ℚ),
      ((dropna l).length < 2 ∨ ∃ x xs, dropna l = x :: xs ∧ x ≤ 0) →
      except_is_error (compute_equity_metrics l) = true) := by
  constructor
  · rintro t (rfl | rfl) <;> rfl
  · intro l hl
    rcases hl with hlen | ⟨x, xs, hx, hx0⟩
    · rcases hdd : dropna l with _ | ⟨e0, tl⟩
      · simp [compute_equity_metrics, hdd, except_is_error]
      · rcases tl with _ | ⟨e1, rest⟩
        · simp [compute_equity_metrics, hdd, except_is_error]
        · rw [hdd] at hlen
          simp only [List.length_cons] at hlen
          omega
    · rcases hxs : xs with _ | ⟨e1, rest⟩
      · subst hxs
        simp [compute_equity_metrics, hx, except_is_error]
      · subst hxs
        simp [compute_equity_metrics, hx, except_is_error, not_lt.mpr hx0]

/-- Witness for C9: a missing trade set and an equity series whose first
non-NaN value is −1. -/
theorem metrics_fail_explicitly_witness :
    except_is_error (compute_trade_metrics none) = true ∧
    except_is_error (compute_equity_metrics [some (-1), some 2]) = true :=
  ⟨metrics_fail_explicitly.1 none (Or.inl rfl),
    metrics_fail_explicitly.2 [some (-1), some 2]
      (Or.inr ⟨-1, [2], rfl, by norm_num⟩)⟩

lemma flat_step_trades (cfg : Config) (c : SimCore) (ts : ℤ) (bar : Bar) :
    (flat_step cfg c ts bar).trades = c.trades := by
  simp only [flat_step]
  split
  · split
    · split
      · rfl
      · split
        · rfl
        · split <;> rfl
    · rfl
  · rfl

lemma position_step_trades (cfg : Config) (c : SimCore) (p : Position)
    (ts : ℤ) (bar : Bar)
    (hopen : (position_step cfg c p ts bar).pos.isSome = true) :
    (position_step cfg c p ts bar).trades = c.trades := by
  revert hopen
  simp only [position_step]
  split
  · intro h
    simp [full_exit] at h
  · split
    · intro _
      rfl
    · split
      · intro h
        simp [full_exit] at h
      · split
        · intro h
          simp [full_exit] at h
        · intro _
          rfl

/-- Claim C10: a trade record is appended only when a full exit fires: any bar
step that leaves a position open leaves the trade ledger unchanged while
still appending exactly one equity point; hence a run that ends with an
open position carries no ledger record of that trade — concretely, the
entry-then-hold run below ends open with an empty ledger and two recorded
equity points. -/
theorem open_position_never_recorded :
    (∀ (cfg : Config) (st : SimCore × List EquityPoint) (tb : ℤ × Bar),
      ((step_bar cfg st tb).1.pos.isSome = true →
        (step_bar cfg st tb).1.trades = st.1.trades) ∧
      (step_bar cfg st tb).2.length = st.2.length + 1) ∧
    ((run_simulation cfgA [(0, barEntry), (1, barHold)]).1.pos.isSome = true ∧
      (run_simulation cfgA [(0, barEntry), (1, barHold)]).1.trades = [] ∧
      (run_simulation cfgA [(0, barEntry), (1, barHold)]).2.length = 2) := by
  constructor
  · intro cfg st tb
    constructor
    · intro hopen
      show (step_core cfg st.1 tb.1 tb.2).trades = st.1.trades
      cases hpos : st.1.pos with
      | none =>
        rw [step_core_of_flat cfg st.1 tb.1 tb.2 hpos]
        exact flat_step_trades cfg st.1 tb.1 tb.2
      | some p =>
        rw [step_core_of_pos cfg st.1 p tb.1 tb.2 hpos]
        apply position_step_trades
        have : (step_bar cfg st tb).1 = step_core cfg st.1 tb.1 tb.2 := rfl
        rw [this, step_core_of_pos cfg st.1 p tb.1 tb.2 hpos] at hopen
        exact hopen
    · simp [step_bar]
  · refine ⟨?_, ?_, ?_⟩ <;>
      · norm_num [run_simulation, run_from, step_bar, step_core, flat_step,
          position_step, full_exit, should_stop_out, tp_hit, pre_exit_stop,
          ratchet_stop, hold_limit, tp1_fraction, apply_buy_cost,
          apply_sell_cost, init_core, cfgA, barEntry, barHold]
        try rfl

/-- Witness for C10: the general step-level statement instantiated on the
concrete open position and holding bar. -/
theorem open_position_never_recorded_witness :
    (step_bar cfgA (cOpen, ([] : List EquityPoint)) (1, barHold)).1.trades
      = cOpen.trades ∧
    (step_bar cfgA (cOpen, ([] : List EquityPoint)) (1, barHold)).2.length
      = ([] : List EquityPoint).length + 1 :=
  ⟨(open_position_never_recorded.1 cfgA (cOpen, []) (1, barHold)).1
      (by
        norm_num [step_bar, step_core, position_step, full_exit,
          should_stop_out, tp_hit, pre_exit_stop, ratchet_stop, hold_limit,
          tp1_fraction, apply_sell_cost, cOpen, pOpen, barHold, cfgA]
        rfl),
    (open_position_never_recorded.1 cfgA (cOpen, []) (1, barHold)).2⟩

end TradingBot
